import Mathlib

/-!
Verification of the retrieval core of the voice-journal repository.

The Python sources (`main.py`, `retriever.py`, `app.py`) are shallowly embedded
below: pure helper functions become Lean functions over `List Char` / `String`,
`datetime` values become an explicit calendar type `PyDate` (day granularity;
time-of-day, which no verified claim observes, is omitted), floating point
distances become `Rat` (only ordering and equality of distances are observed),
and Python dictionaries for records become structures where a missing key or a
stored `None` is collapsed to the value the code treats it as (`""` for
`content`/`id`, `Option.none` for `date`/`source`), which is observationally
equivalent because the code only tests truthiness before using those fields.
The FAISS index and the remote embedding endpoint are external systems; they
enter the model as an oracle `faiss : Nat → List (Int × Rat)` giving, for a
requested neighbour count, the `(position, distance)` rows the library would
return.  All recursion is structural so every definition evaluates in the
kernel.
-/

set_option maxRecDepth 20000

instance {ε α : Type} [DecidableEq ε] [DecidableEq α] : DecidableEq (Except ε α) :=
  fun a b =>
    match a, b with
    | .ok x, .ok y =>
      if h : x = y then isTrue (by rw [h]) else isFalse (fun hh => h (by cases hh; rfl))
    | .error x, .error y =>
      if h : x = y then isTrue (by rw [h]) else isFalse (fun hh => h (by cases hh; rfl))
    | .ok _, .error _ => isFalse (fun hh => Except.noConfusion hh)
    | .error _, .ok _ => isFalse (fun hh => Except.noConfusion hh)

namespace VoiceJournal

/-! ### Python string primitives, modelled on lists of characters -/

/-- Whitespace characters recognised by Python `str.strip` / `str.split`
(ASCII subset; the data in this repository contains no exotic spaces). -/
def chIsWs (c : Char) : Bool :=
  c == ' ' || c == '\t' || c == '\n' || c == '\r' || c == '\x0b' || c == '\x0c'

def dropWhileWs : List Char → List Char
  | [] => []
  | c :: cs => if chIsWs c then dropWhileWs cs else c :: cs

/-- Python `str.strip()` on the character list: whitespace removed from both ends. -/
def trimChars (l : List Char) : List Char :=
  (dropWhileWs (dropWhileWs l).reverse).reverse

def pyTrim (s : String) : String := ⟨trimChars s.data⟩

/-- Python `str.lower()`; `Char.toLower` lowers ASCII letters and leaves CJK
characters unchanged, exactly as `str.lower` does on the alphabets used here. -/
def pyLower (s : String) : String := ⟨s.data.map Char.toLower⟩

/-- Python `len` on a string counts code points, as `List.length` on `data` does. -/
def pyLen (s : String) : Nat := s.data.length

def isPrefixCh : List Char → List Char → Bool
  | [], _ => true
  | _ :: _, [] => false
  | a :: as, b :: bs => a == b && isPrefixCh as bs

/-- Does `needle` occur contiguously inside `hay`?  (Python `needle in hay`.) -/
def containsFrom (needle : List Char) : List Char → Bool
  | [] => isPrefixCh needle []
  | c :: cs => isPrefixCh needle (c :: cs) || containsFrom needle cs

/-- Python `needle in hay` for strings. -/
def strIn (needle hay : String) : Bool := containsFrom needle.data hay.data

/-- Python `s.startswith(pre)`. -/
def pyStartsWith (s pre : String) : Bool := isPrefixCh pre.data s.data

/-- Python `s.endswith(suf)`. -/
def pyEndsWith (s suf : String) : Bool := isPrefixCh suf.data.reverse s.data.reverse

/-- Python `s[:-n]` for `n ≥ 1` (empty result when `n ≥ len(s)`). -/
def pyDropRight (s : String) (n : Nat) : String := ⟨(s.data.reverse.drop n).reverse⟩

def splitWsAux : List Char → List Char → List (List Char)
  | [], cur => if cur = [] then [] else [cur.reverse]
  | c :: cs, cur =>
    if chIsWs c then
      (if cur = [] then splitWsAux cs [] else cur.reverse :: splitWsAux cs [])
    else splitWsAux cs (c :: cur)

/-- Python `s.split()` (no argument): split on whitespace runs, dropping empties. -/
def pySplitWs (s : String) : List String := (splitWsAux s.data []).map fun l => ⟨l⟩

def splitOnCharAux (sep : Char) : List Char → List Char → List (List Char)
  | [], cur => [cur.reverse]
  | c :: cs, cur =>
    if c == sep then cur.reverse :: splitOnCharAux sep cs []
    else splitOnCharAux sep cs (c :: cur)

/-- Python `s.split(sep)` for a one-character separator. -/
def pySplitOnChar (s : String) (sep : Char) : List String :=
  (splitOnCharAux sep s.data []).map fun l => ⟨l⟩

/-- Replace every (non-overlapping, leftmost) occurrence of `needle` by `repl`.
Fuelled so that the recursion is structural; the fuel `hay.length` always
suffices because each step consumes at least one character of `hay`. -/
def replaceChAux (needle repl : List Char) : Nat → List Char → List Char
  | 0, l => l
  | _, [] => []
  | fuel + 1, c :: cs =>
    if isPrefixCh needle (c :: cs) then
      repl ++ replaceChAux needle repl fuel (cs.drop (needle.length - 1))
    else c :: replaceChAux needle repl fuel cs

/-- Python `s.replace(needle, repl)` for a non-empty `needle` (the sources only
replace non-empty literals). -/
def pyReplace (s needle repl : String) : String :=
  if needle = "" then s
  else ⟨replaceChAux needle.data repl.data s.data.length s.data⟩

def digitsToNatAux : List Char → Nat → Option Nat
  | [], acc => some acc
  | c :: cs, acc => if c.isDigit then digitsToNatAux cs (acc * 10 + (c.toNat - 48)) else none

/-- Python `int(s)`: surrounding whitespace stripped, optional sign, decimal
digits.  (PEP-515 underscore separators are not modelled; no input the claims
quantify over contains them.) -/
def pyIntOpt (s : String) : Option Int :=
  match trimChars s.data with
  | [] => none
  | c :: rest =>
    if c == '-' then
      (if rest = [] then none else (digitsToNatAux rest 0).map fun n => -(n : Int))
    else if c == '+' then
      (if rest = [] then none else (digitsToNatAux rest 0).map fun n => (n : Int))
    else (digitsToNatAux (c :: rest) 0).map fun n => (n : Int)

/-- Decimal digits of `n`, most significant first; fuelled (fuel `n + 1` suffices). -/
def natDigitsAux : Nat → Nat → List Char
  | 0, _ => []
  | fuel + 1, n =>
    if n < 10 then [Char.ofNat (48 + n)]
    else natDigitsAux fuel (n / 10) ++ [Char.ofNat (48 + n % 10)]

/-- Python `str(n)` for a natural number. -/
def natStr (n : Nat) : String := ⟨natDigitsAux (n + 1) n⟩

/-- Python `str(i)` for an integer. -/
def intStr (i : Int) : String := if i < 0 then "-" ++ natStr (-i).toNat else natStr i.toNat

def padLeftZeros (s : String) (w : Nat) : String :=
  ⟨List.replicate (w - s.data.length) '0' ++ s.data⟩

/-! ### Calendar model of `datetime.date` (proleptic Gregorian).

`datetime` restricts years to `1..9999`; constructors that Python guards with
`try/except ValueError` are modelled with the same validation.  Arithmetic
(`timedelta` subtraction) is modelled on the unrestricted proleptic calendar:
no verified claim reaches the `datetime.MINYEAR` overflow boundary. -/

def isLeap (y : Int) : Bool :=
  (y % 4 == 0 && y % 100 != 0) || y % 400 == 0

def daysInMonth (y : Int) (m : Nat) : Nat :=
  if m = 2 then (if isLeap y then 29 else 28)
  else if m = 4 ∨ m = 6 ∨ m = 9 ∨ m = 11 then 30
  else 31

structure PyDate where
  year : Int
  month : Nat
  day : Nat
deriving DecidableEq, Repr

def prevDay (d : PyDate) : PyDate :=
  if d.day > 1 then ⟨d.year, d.month, d.day - 1⟩
  else if d.month > 1 then ⟨d.year, d.month - 1, daysInMonth d.year (d.month - 1)⟩
  else ⟨d.year - 1, 12, 31⟩

def nextDay (d : PyDate) : PyDate :=
  if d.day < daysInMonth d.year d.month then ⟨d.year, d.month, d.day + 1⟩
  else if d.month < 12 then ⟨d.year, d.month + 1, 1⟩
  else ⟨d.year + 1, 1, 1⟩

def subDaysN (d : PyDate) : Nat → PyDate
  | 0 => d
  | n + 1 => subDaysN (prevDay d) n

def addDaysN (d : PyDate) : Nat → PyDate
  | 0 => d
  | n + 1 => addDaysN (nextDay d) n

/-- `d + timedelta(days = k)` for a possibly negative `k`. -/
def addDaysI (d : PyDate) (k : Int) : PyDate :=
  if 0 ≤ k then addDaysN d k.toNat else subDaysN d (-k).toNat

/-- Day number (days since 1970-01-01) of a date; the standard
days-from-civil closed formula, used only to compute `datetime.weekday`. -/
def toRD (dt : PyDate) : Int :=
  let y : Int := if dt.month ≤ 2 then dt.year - 1 else dt.year
  let era : Int := Int.tdiv (if 0 ≤ y then y else y - 399) 400
  let yoe : Int := y - era * 400
  let mp : Int := ((dt.month : Int) + 9) % 12
  let doy : Int := Int.tdiv (153 * mp + 2) 5 + (dt.day : Int) - 1
  let doe : Int := yoe * 365 + Int.tdiv yoe 4 - Int.tdiv yoe 100 + doy
  era * 146097 + doe - 719468

/-- `datetime.weekday()`: Monday = 0 … Sunday = 6 (1970-01-01 was a Thursday). -/
def PyDate.weekday (dt : PyDate) : Int := (toRD dt + 3) % 7

/-- The `datetime(year, month, day)` constructor including its validation;
`none` models the `ValueError` the callers catch. -/
def mkDate (y : Int) (m d : Nat) : Option PyDate :=
  if 1 ≤ y ∧ y ≤ 9999 ∧ 1 ≤ m ∧ m ≤ 12 ∧ 1 ≤ d ∧ d ≤ daysInMonth y m then some ⟨y, m, d⟩
  else none

/-- Chronological `≤` on dates (Python compares `datetime` values this way). -/
def dateLE (a b : PyDate) : Bool :=
  if a.year = b.year then
    (if a.month = b.month then decide (a.day ≤ b.day) else decide (a.month < b.month))
  else decide (a.year < b.year)

def fmt2 (n : Nat) : String := padLeftZeros (natStr n) 2

def fmt4 (i : Int) : String := padLeftZeros (natStr i.toNat) 4

/-- `strftime("%Y-%m-%d")`. -/
def strftimeYmd (d : PyDate) : String :=
  fmt4 d.year ++ "-" ++ fmt2 d.month ++ "-" ++ fmt2 d.day

/-- `strftime("%Y-%m")`. -/
def strftimeYm (d : PyDate) : String := fmt4 d.year ++ "-" ++ fmt2 d.month

def allDigits (l : List Char) : Bool := l.all Char.isDigit

/-- `datetime.strptime(s, "%Y-%m-%d")`: three dash-separated digit groups
(`%Y` up to four digits, `%m`/`%d` up to two), validated as a real date;
`none` models the `ValueError` the callers catch. -/
def strptimeYmd (s : String) : Option PyDate :=
  match pySplitOnChar s '-' with
  | [ys, ms, ds] =>
    if ys.data ≠ [] ∧ allDigits ys.data ∧ ys.data.length ≤ 4 ∧
       ms.data ≠ [] ∧ allDigits ms.data ∧ ms.data.length ≤ 2 ∧
       ds.data ≠ [] ∧ allDigits ds.data ∧ ds.data.length ≤ 2 then
      match digitsToNatAux ys.data 0, digitsToNatAux ms.data 0, digitsToNatAux ds.data 0 with
      | some y, some m, some d => mkDate (y : Int) m d
      | _, _, _ => none
    else none
  | _ => none

/-! ### `main.py`: `normalize_date` and `_match_date_filter` -/

/-- `main.normalize_date(date_str, current_date)`.  Returns `.ok none` for the
falsy / `"none"` inputs the caller treats as "no filter"; the `last_month`
branch uses `datetime.replace(month=...)`, whose `ValueError` (current day
absent from the previous month) is uncaught in the source and is modelled as
`.error ()`. -/
def normalize_date (dateStr : String) (current : PyDate) : Except Unit (Option String) :=
  if dateStr = "" ∨ pyLower dateStr = "none" then .ok none
  else
    let ds := pyTrim dateStr
    let dl := pyLower ds
    if dl = "yesterday" then .ok (some (strftimeYmd (prevDay current)))
    else if dl = "today" then .ok (some (strftimeYmd current))
    else if dl = "last_week" then .ok (some (strftimeYmd (subDaysN current 7)))
    else if dl = "last_month" then
      (if current.month = 1 then .ok (some (strftimeYm ⟨current.year - 1, 12, current.day⟩))
       else if current.day ≤ daysInMonth current.year (current.month - 1) then
         .ok (some (strftimeYm ⟨current.year, current.month - 1, current.day⟩))
       else .error ())
    else if dl = "last_year" then .ok (some (intStr (current.year - 1)))
    -- the `N_days_ago` / `N_months_ago` suffix branches and the fall-through all
    -- `return date_str` (the stripped string) unchanged
    else .ok (some ds)

/-- `main._match_date_filter(item_date, filter_date, current_date)` (the
`current_date` parameter is unused in the source and omitted here).  A `none`
item date models both Python `None` and non-string values, for which the code
returns `False`. -/
def match_date_filter (itemDate : Option String) (filterDate : String) : Bool :=
  match itemDate with
  | none => false
  | some d =>
    if pyTrim d = "" then false
    else if pyEndsWith filterDate "-下旬" then
      (if pyStartsWith (pyTrim d) (pyDropRight filterDate 3) then
        (if pyLen (pyTrim d) ≥ 10 then
          match (pySplitOnChar (pyTrim d) '-').get? 2 with
          | some dayStr =>
            match pyIntOpt dayStr with
            | some day => decide (21 ≤ day ∧ day ≤ 31)
            | none => false
          | none => false
        else false)
      else false)
    else pyStartsWith (pyTrim d) filterDate

/-! ### `retriever.py`: `VectorRetriever._parse_date_filter` -/

/-- One step of the `N_months_ago` loop: `start_date.replace(month=month-1)`
(or `year-1, month=12`), with `datetime.replace`'s day validation; `none`
models the `ValueError` that the surrounding `try/except` turns into a
fall-through. -/
def monthBack (d : PyDate) : Option PyDate :=
  if d.month = 1 then
    (if 1 ≤ d.year - 1 then some ⟨d.year - 1, 12, d.day⟩ else none)
  else if d.day ≤ daysInMonth d.year (d.month - 1) then some ⟨d.year, d.month - 1, d.day⟩
  else none

def monthBackLoop : PyDate → Nat → Option PyDate
  | d, 0 => some d
  | d, n + 1 =>
    match monthBack d with
    | some d2 => monthBackLoop d2 n
    | none => none

/-- The `"N_months_ago"` branch (suffix check, `int` parse, month loop,
`replace(day=1)`); `none` means the branch did not return and control falls
through to the next branch. -/
def monthsAgoBranch (df : String) (current : PyDate) : Option (PyDate × PyDate) :=
  if pyEndsWith df "_months_ago" then
    match pyIntOpt (pyReplace df "_months_ago" "") with
    | some months =>
      match monthBackLoop current months.toNat with
      | some start0 => some (⟨start0.year, start0.month, 1⟩, prevDay current)
      | none => none
    | none => none
  else none

/-- The `"N_days_ago"` branch: the last `N` days including today,
`(current - timedelta(days = N - 1), current)`. -/
def daysAgoBranch (df : String) (current : PyDate) : Option (PyDate × PyDate) :=
  if pyEndsWith df "_days_ago" then
    match pyIntOpt (pyReplace df "_days_ago" "") with
    | some days => some (addDaysI current (1 - days), current)
    | none => none
  else none

/-- The `strptime("%Y-%m-%d")` branch: a single day. -/
def ymdBranch (df : String) : Option (PyDate × PyDate) :=
  (strptimeYmd df).map fun d => (d, d)

/-- The `"YYYY-MM"` branch: first to last day of the month. -/
def ymBranch (df : String) : Option (PyDate × PyDate) :=
  match pySplitOnChar df '-' with
  | [ys, ms] =>
    match pyIntOpt ys, pyIntOpt ms with
    | some y, some m =>
      if 1 ≤ m ∧ m ≤ 12 then
        (if 1 ≤ y ∧ y ≤ 9999 then
          let m2 := m.toNat
          some (⟨y, m2, 1⟩, if m2 = 12 then ⟨y, 12, 31⟩ else prevDay ⟨y, m2 + 1, 1⟩)
        else none)
      else none
    | _, _ => none
  | _ => none

/-- The dekad (`上旬`/`中旬`/`下旬`) branch. -/
def dekadBranch (df : String) : Option (PyDate × PyDate) :=
  if strIn "下旬" df || strIn "上旬" df || strIn "中旬" df then
    let cleaned := pyReplace (pyReplace (pyReplace df "下旬" "") "上旬" "") "中旬" ""
    match pySplitOnChar cleaned '-' with
    | ys :: ms :: _ =>
      match pyIntOpt ys, pyIntOpt ms with
      | some y, some m =>
        if 1 ≤ m ∧ m ≤ 12 ∧ 1 ≤ y ∧ y ≤ 9999 then
          let m2 := m.toNat
          if strIn "上旬" df then some (⟨y, m2, 1⟩, ⟨y, m2, 10⟩)
          else if strIn "中旬" df then some (⟨y, m2, 11⟩, ⟨y, m2, 20⟩)
          else some (⟨y, m2, 21⟩, if m2 = 12 then ⟨y, 12, 31⟩ else prevDay ⟨y, m2 + 1, 1⟩)
        else none
      | _, _ => none
    | _ => none
  else none

/-- The bare-`"YYYY"` branch: the whole year when `1900 ≤ y ≤ 2100`. -/
def yearBranch (df : String) : Option (PyDate × PyDate) :=
  match pyIntOpt df with
  | some y => if 1900 ≤ y ∧ y ≤ 2100 then some (⟨y, 1, 1⟩, ⟨y, 12, 31⟩) else none
  | none => none

/-- The branch chain of `_parse_date_filter` applied to the already stripped
and lowercased filter string: the branches are tried in source order; a branch
whose guard fails, whose `int`/`strptime`/`datetime` call raises the caught
`ValueError`, or whose range check fails, falls through to the next branch;
the final fall-through is `None` ("cannot parse, ignore the filter"). -/
def parseNormalized (df : String) (current : PyDate) : Option (PyDate × PyDate) :=
  if df = "last_year" then some (⟨current.year - 1, 1, 1⟩, ⟨current.year - 1, 12, 31⟩)
  else if df = "last_month" then
    (if current.month = 1 then some (⟨current.year - 1, 12, 1⟩, ⟨current.year - 1, 12, 31⟩)
     else some (⟨current.year, current.month - 1, 1⟩, prevDay ⟨current.year, current.month, 1⟩))
  else if df = "last_week" then
    some (subDaysN (subDaysN current (current.weekday + 1).toNat) 6,
      subDaysN current (current.weekday + 1).toNat)
  else
    (monthsAgoBranch df current) <|> (daysAgoBranch df current) <|> (ymdBranch df) <|>
      (ymBranch df) <|> (dekadBranch df) <|> (yearBranch df)

/-- `VectorRetriever._parse_date_filter(date_filter, current_date)`. -/
def parse_date_filter (dateFilter : String) (current : PyDate) : Option (PyDate × PyDate) :=
  if dateFilter = "" then none
  else parseNormalized (pyLower (pyTrim dateFilter)) current

/-! ### Data model: metadata entries and retrieval hits -/

/-- One entry of the `chunks_metadata.json` list.  `id` and `content` use `""`
for a missing key or a stored `None` (the code only ever truthiness-tests them
before use); `date`/`source` keep the `None`-vs-string distinction the code
observes. -/
structure Chunk where
  id : String
  source : Option String
  date : Option String
  content : String
deriving DecidableEq, Repr

inductive Origin where
  | keyword
  | vector
deriving DecidableEq, Repr

/-- A retrieval hit: the dictionary `{id, source, date, content, distance}`
produced by `VectorRetriever.search` or the copied metadata item of a keyword
match, together with the `_source` tag (`keyword_match`/`vector_search`) that
`call_retriever` stamps on it. -/
structure Hit where
  id : String
  source : Option String
  date : Option String
  content : String
  distance : Rat
  origin : Origin
deriving DecidableEq, Repr

def truthyO : Option String → Bool
  | none => false
  | some s => s ≠ ""

/-! ### `retriever.py`: `VectorRetriever._filter_by_date` and `search` -/

/-- Python list indexing `metadata[idx]` with an `Int` index: negative indices
wrap once; an out-of-range index raises `IndexError` in Python — all callers
below either catch it or only pass indices produced by FAISS, which lie in
`[-1, ntotal)` with `ntotal = len(metadata)` enforced at load, so the `none`
result (modelled as a skip) is unreachable there. -/
def pyGetIdx (metadata : List Chunk) (i : Int) : Option Chunk :=
  if 0 ≤ i then metadata.get? i.toNat
  else if (-i).toNat ≤ metadata.length then metadata.get? (metadata.length - (-i).toNat)
  else none

/-- `VectorRetriever._filter_by_date(indices, (start, stop))`: keep an index
when its chunk has a truthy string date that `strptime("%Y-%m-%d")` parses to a
date inside the inclusive range; parse failures and `None` dates are skipped. -/
def filter_by_date (metadata : List Chunk) (indices : List Int) (start stop : PyDate) :
    List Int :=
  indices.filter fun idx =>
    match pyGetIdx metadata idx with
    | none => false
    | some chunk =>
      match chunk.date with
      | none => false
      | some ds =>
        if ds = "" then false
        else
          match strptimeYmd ds with
          | some dt => dateLE start dt && dateLE dt stop
          | none => false

/-- The environment a loaded `VectorRetriever` runs in: the metadata list, the
index size, the FAISS search oracle (rows of `(position, distance)` for a
requested neighbour count, for the embedding of the one query of the call),
and whether the embedding/FAISS step succeeds (`False` models the exception
that `call_retriever` catches into an empty vector result). -/
structure LocalEnv where
  metadata : List Chunk
  ntotal : Nat
  faiss : Nat → List (Int × Rat)
  vectorOk : Bool

/-- The adaptive neighbour count of `search` step 2 (`search_k`). -/
def computeSearchK (df : String) (topK ntotal : Nat) : Nat :=
  let c := pyTrim df
  if pyLen c = 10 ∧ (pySplitOnChar c '-').length = 3 ∧ strIn "下旬" c = false then
    min (topK * 200) ntotal
  else if strIn "下旬" c || strIn "上旬" c || strIn "中旬" c then min (topK * 100) ntotal
  else min (topK * 50) ntotal

def chunkHit (c : Chunk) (dist : Rat) : Hit :=
  ⟨c.id, c.source, c.date, c.content, dist, .vector⟩

/-- `idx_to_distance.get(idx, 1.0)`: the dictionary is built left to right, so
a repeated index keeps the *last* distance. -/
def lookupLastDist (pairs : List (Int × Rat)) (idx : Int) : Rat :=
  match pairs.reverse.find? (fun p => p.1 == idx) with
  | some p => p.2
  | none => 1

/-- The first result-building loop of `search`: walk `result_indices`, skip a
truthy id already seen, record every visited id in `seen_ids`, and emit the
chunk with its distance.  Returns the hits and the final `seen_ids`. -/
def collectHits (metadata : List Chunk) (pairs : List (Int × Rat)) :
    List Int → List String → List Hit × List String
  | [], seen => ([], seen)
  | idx :: rest, seen =>
    match pyGetIdx metadata idx with
    | none => collectHits metadata pairs rest seen
    | some chunk =>
      if chunk.id ≠ "" ∧ seen.contains chunk.id then collectHits metadata pairs rest seen
      else
        (chunkHit chunk (lookupLastDist pairs idx) ::
            (collectHits metadata pairs rest (chunk.id :: seen)).1,
          (collectHits metadata pairs rest (chunk.id :: seen)).2)

def distLE (a b : Hit) : Prop := a.distance ≤ b.distance

instance : DecidableRel distLE := fun a b => inferInstanceAs (Decidable (a.distance ≤ b.distance))

/-- Insert before the first element that is not strictly smaller: combined with
`sortByDist` this computes exactly the result of Python's stable ascending
`list.sort(key=lambda x: x["distance"])` (a stable sort's output is uniquely
determined by the key order and the input order). -/
def insertByDist (x : Hit) : List Hit → List Hit
  | [] => [x]
  | y :: ys => if y.distance < x.distance then y :: insertByDist x ys else x :: y :: ys

def sortByDist : List Hit → List Hit
  | [] => []
  | x :: xs => insertByDist x (sortByDist xs)

/-- `distances[0][indices[0].tolist().index(idx)]`: the distance at the *first*
occurrence of `idx`.  `list.index` raises when absent; the only caller passes
indices drawn from `pairs`, so the default is unreachable. -/
def firstDist (pairs : List (Int × Rat)) (idx : Int) : Rat :=
  match pairs.find? (fun p => p.1 == idx) with
  | some p => p.2
  | none => 0

/-- The supplement loop of `search`: refill from candidates that the date
filter dropped, skipping falsy ids entirely and deduplicating against
`seen_ids`. -/
def collectSupp (metadata : List Chunk) (pairs : List (Int × Rat)) :
    List Int → List String → List Hit
  | [], _ => []
  | idx :: rest, seen =>
    match pyGetIdx metadata idx with
    | none => collectSupp metadata pairs rest seen
    | some chunk =>
      if chunk.id ≠ "" ∧ ¬ seen.contains chunk.id then
        chunkHit chunk (firstDist pairs idx) :: collectSupp metadata pairs rest (chunk.id :: seen)
      else collectSupp metadata pairs rest seen

/-- `search_k`, including the `if date_filter:` guard around the adaptive rule. -/
def searchKOf (dateFilter : Option String) (topK ntotal : Nat) : Nat :=
  if truthyO dateFilter then computeSearchK (dateFilter.getD "") topK ntotal else topK

/-- `result_indices` of `search` step 3: the FAISS positions, date-filtered
when a parsable filter is present (a filter that fails to parse is ignored
with a warning), truncated to `top_k`. -/
def searchResultIndices (metadata : List Chunk) (pairs : List (Int × Rat))
    (dateFilter : Option String) (today : PyDate) (topK : Nat) : List Int :=
  if truthyO dateFilter then
    match parse_date_filter (dateFilter.getD "") today with
    | none => (pairs.map Prod.fst).take topK
    | some (start, stop) => (filter_by_date metadata (pairs.map Prod.fst) start stop).take topK
  else (pairs.map Prod.fst).take topK

/-- Steps 4–5 of `search`: build the result dictionaries with id-dedup, sort
ascending by distance, run the supplement pass when the date filter starved
the result (`len(results) < top_k and len(result_indices) < len(indices[0])`),
and re-sort. -/
def searchPost (metadata : List Chunk) (pairs : List (Int × Rat)) (resultIndices : List Int)
    (topK : Nat) : List Hit :=
  if (sortByDist (collectHits metadata pairs resultIndices []).1).length < topK ∧
      resultIndices.length < (pairs.map Prod.fst).length then
    sortByDist
      (sortByDist (collectHits metadata pairs resultIndices []).1 ++
        collectSupp metadata pairs
          (((pairs.map Prod.fst).filter fun idx => !(resultIndices.contains idx)).take
            (topK - (sortByDist (collectHits metadata pairs resultIndices []).1).length))
          (collectHits metadata pairs resultIndices []).2)
  else sortByDist (collectHits metadata pairs resultIndices []).1

/-- `VectorRetriever.search(query, top_k, date_filter, current_date)`.  The
embedding of the query is consumed by the FAISS oracle (`le.faiss search_k`
stands for `index.search(query_vector, search_k)`); the rest is translated
statement by statement and ends with the final truncation to `top_k`. -/
def VectorRetriever.search (le : LocalEnv) (topK : Nat) (dateFilter : Option String)
    (today : PyDate) : List Hit :=
  (searchPost le.metadata (le.faiss (searchKOf dateFilter topK le.ntotal))
      (searchResultIndices le.metadata (le.faiss (searchKOf dateFilter topK le.ntotal))
        dateFilter today topK)
      topK).take topK

/-! ### `main.py`: keyword pass, post-retrieval cleanse, merge, `call_retriever` -/

/-- A keyword match is the metadata item copied verbatim
(`keyword_result = item.copy()`) tagged `keyword_match` with distance `0.0`. -/
def kwHit (c : Chunk) : Hit := ⟨c.id, c.source, c.date, c.content, 0, .keyword⟩

/-- The content condition of the keyword pass: every whitespace token of the
query occurs (case-insensitively) in the content when the query is multi-word,
and the full stripped query occurs when it is a single word. -/
def kwContentMatch (query : String) (content : String) : Bool :=
  if (pySplitWs (pyTrim query)).length > 1 then
    (pySplitWs (pyTrim query)).all fun kw => strIn (pyLower kw) (pyLower content)
  else strIn (pyLower (pyTrim query)) (pyLower content)

/-- The keyword brute-force pass of `call_retriever` (step 1): only for queries
whose stripped length is `< 20`; skips empty contents, requires
`kwContentMatch`, and applies `_match_date_filter` when a normalized date
filter is present. -/
def keyword_pass (metadata : List Chunk) (query : String) (nd : Option String) : List Hit :=
  if pyLen (pyTrim query) < 20 then
    metadata.filterMap fun item =>
      if item.content = "" then none
      else if kwContentMatch query item.content then
        (if truthyO nd then
          (if match_date_filter item.date (nd.getD "") then some (kwHit item) else none)
         else some (kwHit item))
      else none
  else []

/-- The configured generic-word set of the cleanse step. -/
def generic_words : List String :=
  ["记录", "内容", "voice", "录音", "语音", "备忘", "最近", "什么", "哪些", "有什么"]

/-- `str(source).strip()` with `None → ""`. -/
def sourceNorm : Option String → String
  | none => ""
  | some s => pyTrim s

/-- The "user-authored" test of the cleanse step (`is_voice`): id begins with
`voice_`, or equals the hard-coded test id, or the source field equals
`voice`. -/
def isVoiceHit (r : Hit) : Bool :=
  pyStartsWith r.id "voice_" || r.id == "test_manual_001" || sourceNorm r.source == "voice"

/-- The `is_generic_query` test: some token is in the configured set, or the
stripped query has length ≤ 6, or it contains `最近` or `什么` as a substring. -/
def isGenericQuery (queryStripped : String) (queryTokens : List String) : Bool :=
  queryTokens.any (fun t => generic_words.contains (pyLower t)) ||
    decide (pyLen queryStripped ≤ 6) || strIn "最近" queryStripped || strIn "什么" queryStripped

/-- The "generic query" condition *as the specification claim words it*: the
query "contains a token from the configured small set or has length at most
6".  Used only to compare the claim against the source-derived
`isGenericQuery`, which additionally treats any query containing `最近` or
`什么` as a substring (not necessarily as a whole token) as generic. -/
def claimGenericQuery (queryStripped : String) (queryTokens : List String) : Bool :=
  queryTokens.any (fun t => generic_words.contains (pyLower t)) ||
    decide (pyLen queryStripped ≤ 6)

/-- `max(query_tokens, key=len)`: the *first* longest token (Python `max`
keeps the earliest maximum); `query_stripped` when the token list is empty. -/
def longestToken (queryTokens : List String) (queryStripped : String) : String :=
  match queryTokens with
  | [] => queryStripped
  | t :: ts => ts.foldl (fun acc x => if pyLen x > pyLen acc then x else acc) t

/-- Does one vector hit survive the cleanse?  Empty content is dropped; a
user-authored hit survives when the query is generic or some token longer than
one character occurs in its content; any other hit survives only when the
longest token occurs in its content. -/
def cleanseKeep (queryStripped : String) (queryTokens : List String) (r : Hit) : Bool :=
  if r.content = "" then false
  else if isVoiceHit r then
    (if isGenericQuery queryStripped queryTokens then true
     else queryTokens.any fun t => decide (pyLen t > 1) && strIn (pyLower t) (pyLower r.content))
  else strIn (pyLower (longestToken queryTokens queryStripped)) (pyLower r.content)

/-- The post-retrieval cleanse of `call_retriever` (step 2): applied only to
precise-entity queries (stripped length `< 15`); otherwise the raw vector
results pass through. -/
def post_retrieval_cleanse (query : String) (raw : List Hit) : List Hit :=
  if pyLen (pyTrim query) < 15 then
    raw.filter (cleanseKeep (pyTrim query) (pySplitWs (pyTrim query)))
  else raw

/-- The vector side of the hybrid retrieval: the cleansed `search` output, or
`[]` when the vector pass raised (caught at `call_retriever`). -/
def vector_results (le : LocalEnv) (query : String) (nd : Option String) (k : Nat)
    (today : PyDate) : List Hit :=
  if le.vectorOk then post_retrieval_cleanse query (VectorRetriever.search le k nd today)
  else []

/-- The merge-and-dedupe loop of `call_retriever` (step 3), run over the
keyword results followed by the vector results with one shared `seen_ids`:
a hit is kept when its id is truthy and unseen. -/
def merge_dedup : List Hit → List String → List Hit
  | [], _ => []
  | r :: rs, seen =>
    if r.id ≠ "" ∧ ¬ seen.contains r.id then r :: merge_dedup rs (r.id :: seen)
    else merge_dedup rs seen

/-- The `seen_ids` state after the merge loop has consumed a list — used to
reason about running the loop over `keyword_results ++ vector_results` in two
stages. -/
def mergeSeen : List Hit → List String → List String
  | [], seen => seen
  | r :: rs, seen =>
    if r.id ≠ "" ∧ ¬ seen.contains r.id then mergeSeen rs (r.id :: seen)
    else mergeSeen rs seen

/-- `final_results`: merged, deduplicated, truncated to `max_results`. -/
def final_results (le : LocalEnv) (query : String) (nd : Option String) (k : Nat)
    (today : PyDate) : List Hit :=
  (merge_dedup (keyword_pass le.metadata query nd ++ vector_results le query nd k today) []).take k

/-! ### `main.py`: result formatting, the no-record sentinel and `call_retriever` -/

/-- Model of Python `"{:.4f}".format(x)` on the rational stand-in for the
float distance (round half up; the tie-breaking of binary-float formatting is
unobservable to every claim, which only inspects CJK substrings). -/
def fmtDist (q : Rat) : String :=
  let scaled : Int := ⌊q * 10000 + 1 / 2⌋
  let sign := if scaled < 0 then "-" else ""
  let a := scaled.natAbs
  sign ++ natStr (a / 10000) ++ "." ++ padLeftZeros (natStr (a % 10000)) 4

/-- `content[:500] + "..."` when longer than 500 characters. -/
def truncContent (c : String) : String :=
  if pyLen c > 500 then (⟨c.data.take 500⟩ : String) ++ "..." else c

/-- `r.get('date', '未知日期')`: the search/keyword dictionaries always carry a
`date` key, so a stored `None` is rendered as Python prints it. -/
def dateDisplay : Option String → String
  | none => "None"
  | some s => s

/-- One formatted record line of the local hybrid path (with the 来源 label). -/
def hitLine (i : Nat) (r : Hit) : String :=
  let label := if r.origin = .keyword then "关键词匹配" else "向量检索"
  "--- 记录 " ++ natStr i ++ " [日期: " ++ dateDisplay r.date ++ ", 相似度: " ++
    fmtDist r.distance ++ ", 来源: " ++ label ++ "] ---\n" ++ truncContent r.content ++ "\n"

/-- One formatted record line of the HTTP fall-back path (no 来源 label). -/
def hitLineHttp (i : Nat) (r : Hit) : String :=
  "--- 记录 " ++ natStr i ++ " [日期: " ++ dateDisplay r.date ++ ", 相似度: " ++
    fmtDist r.distance ++ "] ---\n" ++ truncContent r.content ++ "\n"

/-- Python `"\n".join(lines)`. -/
def joinLines : List String → String
  | [] => ""
  | [s] => s
  | s :: rest => s ++ "\n" ++ joinLines rest

def enumLines (f : Nat → Hit → String) : Nat → List Hit → List String
  | _, [] => []
  | i, r :: rs => f i r :: enumLines f (i + 1) rs

def format_results (hits : List Hit) : String :=
  joinLines ("【系统反馈】已找到以下相关记录：\n" :: enumLines hitLine 1 hits)

def format_http (hits : List Hit) : String :=
  joinLines ("【系统反馈】已找到以下相关记录：\n" :: enumLines hitLineHttp 1 hits)

/-- The synthetic no-record envelope of the anti-hallucination fall-back. -/
def no_record_sentinel : String :=
  "【系统反馈】数据库中**完全没有**找到包含此关键词的记录。请直接告诉用户\x27没有找到相关记录\x27，**严禁**提及其他无关人物，**严禁**编造关系。"

/-- Outcome of the HTTP fall-back `POST /retrieve` call: the parsed `results`
list, a `requests.RequestException`, or another exception. -/
inductive HttpResult where
  | ok (hits : List Hit)
  | reqErr (msg : String)
  | excErr (msg : String)

/-- The world `call_retriever` runs in: the local retriever when
`_get_local_retriever()` succeeded, the HTTP service keyed by the
`date_filter` field of the payload, and today's date (`datetime.now()`). -/
structure Env where
  localEnv : Option LocalEnv
  http : Option String → HttpResult
  today : PyDate

/-- The acceptance test applied to the relaxed result:
`relaxed_result and "没有找到" not in relaxed_result and "完全没有" not in relaxed_result`. -/
def relax_accept (rx : String) : Bool :=
  rx ≠ "" && !(strIn "没有找到" rx) && !(strIn "完全没有" rx)

/-- `call_retriever(query, None, max_results)` — the shape every relaxed
(recursive) invocation has: the relaxation guard `normalized_date and
date_filter` is false, so this computation never recurses.  Factoring it out
mirrors the recursion structure of the source, whose self-call always passes
`date_filter=None`. -/
def call_retriever_none (env : Env) (query : String) (k : Nat) : String :=
  match env.localEnv with
  | some le =>
    if final_results le query none k env.today = [] then no_record_sentinel
    else format_results (final_results le query none k env.today)
  | none =>
    match env.http none with
    | .ok hits => if hits = [] then no_record_sentinel else format_http hits
    | .reqErr m => "【系统错误】检索服务暂时不可用: " ++ m
    | .excErr m => "【系统错误】检索过程出现异常: " ++ m

/-- The relaxation block (step 4): re-run without the date filter, adopt the
result when the acceptance test passes, otherwise fall through to the
sentinel.  The second component counts relaxation invocations. -/
def relax_outcome (env : Env) (query : String) (k : Nat) : String × Nat :=
  if relax_accept (call_retriever_none env query k) then (call_retriever_none env query k, 1)
  else (no_record_sentinel, 1)

/-- The body of `call_retriever` for a truthy `date_filter` string whose
normalization produced `nd`. -/
def call_retriever_dated (env : Env) (query : String) (nd : Option String) (k : Nat) :
    String × Nat :=
  match env.localEnv with
  | some le =>
    if final_results le query nd k env.today = [] then
      (if truthyO nd then relax_outcome env query k else (no_record_sentinel, 0))
    else (format_results (final_results le query nd k env.today), 0)
  | none =>
    match env.http (if truthyO nd then nd else none) with
    | .ok hits =>
      if hits = [] then
        (if truthyO nd then relax_outcome env query k else (no_record_sentinel, 0))
      else (format_http hits, 0)
    | .reqErr m => ("【系统错误】检索服务暂时不可用: " ++ m, 0)
    | .excErr m => ("【系统错误】检索过程出现异常: " ++ m, 0)

/-- `main.call_retriever(query, date_filter, max_results)` (the `expand_query`
flag never changes `search_query` in the source and is omitted).  Returns the
envelope string and the number of relaxation invocations performed; `.error`
models the uncaught `ValueError` `normalize_date` can raise. -/
def call_retriever (env : Env) (query : String) (dateFilter : Option String) (k : Nat) :
    Except Unit (String × Nat) :=
  match dateFilter with
  | none => .ok (call_retriever_none env query k, 0)
  | some df =>
    if df = "" then .ok (call_retriever_none env query k, 0)
    else
      match normalize_date df env.today with
      | .error e => .error e
      | .ok nd => .ok (call_retriever_dated env query nd k)

/-! ### `app.py`: load-time invariant check, delete-time metadata cleanup,
record creation, and the chat endpoint -/

/-- `VectorRetriever._load_index_and_metadata`, reduced to its final
consistency gate: loading fails (a raised `ValueError`) exactly when the index
vector count differs from the metadata length, so a retriever is only ever
served from a matching pair. -/
def load_index_and_metadata (ntotal : Nat) (metadata : List Chunk) :
    Except String (Nat × List Chunk) :=
  if ntotal ≠ metadata.length then .error "索引向量数量与元数据数量不匹配"
  else .ok (ntotal, metadata)

/-- The RAG-index cleanup inside `delete_conversation`: the metadata file is
rewritten with the deleted record ids filtered out; the index file itself is
not touched (a rebuild is only *scheduled* afterwards). -/
def delete_cleanup_metadata (deletedIds : List String) (metadata : List Chunk) : List Chunk :=
  metadata.filter fun m => !(deletedIds.contains m.id)

/-- Wall-clock value used by `generate_id`/`create_record` (minute resolution —
the finest the id format captures). -/
structure PyNow where
  year : Int
  month : Nat
  day : Nat
  hour : Nat
  minute : Nat
deriving DecidableEq, Repr

/-- `app.generate_id()`: `voice_` + `now.strftime('%Y%m%d_%H%M')`. -/
def generate_id (now : PyNow) : String :=
  "voice_" ++ fmt4 now.year ++ fmt2 now.month ++ fmt2 now.day ++ "_" ++
    fmt2 now.hour ++ fmt2 now.minute

structure VoiceRecord where
  id : String
  source : String
  date : String
  time : String
  content : String
deriving DecidableEq, Repr

/-- `app.create_record(content)` (the optional `conversation_id`/`user_id`
fields do not interact with the id and are omitted). -/
def create_record (content : String) (now : PyNow) : VoiceRecord :=
  ⟨generate_id now, "voice", strftimeYmd ⟨now.year, now.month, now.day⟩,
    fmt2 now.hour ++ ":" ++ fmt2 now.minute, content⟩

/-- The store update of `add_voice_record`: `records.append(record)` followed
by `save_records` — an unconditional append with no duplicate-id check. -/
def records_append (records : List VoiceRecord) (r : VoiceRecord) : List VoiceRecord :=
  records ++ [r]

structure ChatMsg where
  role : String
  content : String
deriving DecidableEq, Repr

/-- The `ChatResponse` Pydantic model of `app.py`. -/
structure ChatResponseM where
  response : String
  success : Bool
  error : Option String
deriving DecidableEq, Repr

/-- What the chat endpoint depends on: whether the RAG module loaded, and the
agent call, whose raised exception (message `e`) is modelled as `.error e`. -/
structure ChatDeps where
  ragAvailable : Bool
  agent : String → List ChatMsg → Except String String

def rag_unavailable_response : ChatResponseM :=
  ⟨"RAG 功能暂不可用（索引文件未加载）。这是云端演示版，录音功能正常工作。如需完整 RAG 功能，请使用本地版本。",
    false, some "RAG模块未加载（索引文件缺失）"⟩

/-- `app.chat_api`: the full handler body — the availability gate, the agent
call under `try/except`, the history append and 20-message trim.  Returns the
HTTP response together with the updated session history. -/
def chat_api (d : ChatDeps) (message : String) (history : List ChatMsg) :
    ChatResponseM × List ChatMsg :=
  if d.ragAvailable = false then (rag_unavailable_response, history)
  else
    match d.agent message history with
    | .ok resp =>
      let h2 := history ++ [⟨"user", message⟩, ⟨"assistant", resp⟩]
      let h3 := if h2.length > 20 then h2.drop (h2.length - 20) else h2
      (⟨resp, true, none⟩, h3)
    | .error e => (⟨"处理请求时出错: " ++ e, false, some e⟩, history)

/-! ## Helper lemmas -/

theorem contains_true_iff (s : List String) (x : String) : s.contains x = true ↔ x ∈ s := by
  simp

theorem mem_insertByDist {a x : Hit} {l : List Hit} :
    a ∈ insertByDist x l ↔ a = x ∨ a ∈ l := by
  induction l with
  | nil => simp [insertByDist]
  | cons y ys ih =>
    by_cases h : y.distance < x.distance
    · simp only [insertByDist, if_pos h, List.mem_cons, ih]
      tauto
    · simp only [insertByDist, if_neg h, List.mem_cons]

theorem pairwise_insertByDist {x : Hit} {l : List Hit} (h : l.Pairwise distLE) :
    (insertByDist x l).Pairwise distLE := by
  induction l with
  | nil => simp [insertByDist, List.pairwise_cons]
  | cons y ys ih =>
    rw [List.pairwise_cons] at h
    by_cases hlt : y.distance < x.distance
    · rw [insertByDist, if_pos hlt, List.pairwise_cons]
      refine ⟨?_, ih h.2⟩
      intro a ha
      rcases mem_insertByDist.mp ha with rfl | ha2
      · exact le_of_lt hlt
      · exact h.1 a ha2
    · rw [insertByDist, if_neg hlt, List.pairwise_cons]
      have hxy : distLE x y := le_of_not_lt hlt
      refine ⟨?_, List.pairwise_cons.mpr h⟩
      intro a ha
      rcases List.mem_cons.mp ha with rfl | ha2
      · exact hxy
      · exact le_trans hxy (h.1 a ha2)

theorem pairwise_sortByDist (l : List Hit) : (sortByDist l).Pairwise distLE := by
  induction l with
  | nil => simp [sortByDist]
  | cons x xs ih => exact pairwise_insertByDist ih

theorem mem_sortByDist {a : Hit} {l : List Hit} : a ∈ sortByDist l ↔ a ∈ l := by
  induction l with
  | nil => simp [sortByDist]
  | cons x xs ih => simp [sortByDist, mem_insertByDist, ih]

theorem collectHits_origin (m : List Chunk) (p : List (Int × Rat)) :
    ∀ (idxs : List Int) (seen : List String) (h : Hit),
      h ∈ (collectHits m p idxs seen).1 → h.origin = .vector := by
  intro idxs
  induction idxs with
  | nil => intro seen h hh; simp [collectHits] at hh
  | cons i rest ih =>
    intro seen h hh
    rw [collectHits] at hh
    split at hh
    · exact ih _ _ hh
    · split at hh
      · exact ih _ _ hh
      · rcases List.mem_cons.mp hh with rfl | hh2
        · rfl
        · exact ih _ _ hh2

theorem collectSupp_origin (m : List Chunk) (p : List (Int × Rat)) :
    ∀ (idxs : List Int) (seen : List String) (h : Hit),
      h ∈ collectSupp m p idxs seen → h.origin = .vector := by
  intro idxs
  induction idxs with
  | nil => intro seen h hh; simp [collectSupp] at hh
  | cons i rest ih =>
    intro seen h hh
    rw [collectSupp] at hh
    split at hh
    · exact ih _ _ hh
    · split at hh
      · rcases List.mem_cons.mp hh with rfl | hh2
        · rfl
        · exact ih _ _ hh2
      · exact ih _ _ hh

theorem searchPost_mem_origin (m : List Chunk) (p : List (Int × Rat)) (ri : List Int)
    (topK : Nat) : ∀ h ∈ searchPost m p ri topK, h.origin = .vector := by
  intro h hh
  rw [searchPost] at hh
  split at hh
  · rcases List.mem_append.mp (mem_sortByDist.mp hh) with h3 | h3
    · exact collectHits_origin _ _ _ _ _ (mem_sortByDist.mp h3)
    · exact collectSupp_origin _ _ _ _ _ h3
  · exact collectHits_origin _ _ _ _ _ (mem_sortByDist.mp hh)

theorem searchPost_pairwise (m : List Chunk) (p : List (Int × Rat)) (ri : List Int)
    (topK : Nat) : (searchPost m p ri topK).Pairwise distLE := by
  rw [searchPost]
  split
  · exact pairwise_sortByDist _
  · exact pairwise_sortByDist _

theorem search_mem_origin (le : LocalEnv) (k : Nat) (nd : Option String) (t : PyDate) :
    ∀ h ∈ VectorRetriever.search le k nd t, h.origin = .vector := by
  intro h hh
  rw [VectorRetriever.search] at hh
  exact searchPost_mem_origin _ _ _ _ h (List.mem_of_mem_take hh)

theorem search_pairwise (le : LocalEnv) (k : Nat) (nd : Option String) (t : PyDate) :
    (VectorRetriever.search le k nd t).Pairwise distLE := by
  rw [VectorRetriever.search]
  exact List.Pairwise.sublist (List.take_sublist _ _) (searchPost_pairwise _ _ _ _)

theorem vector_results_mem_origin (le : LocalEnv) (q : String) (nd : Option String) (k : Nat)
    (t : PyDate) : ∀ h ∈ vector_results le q nd k t, h.origin = .vector := by
  intro h hh
  rw [vector_results] at hh
  split at hh
  · rw [post_retrieval_cleanse] at hh
    split at hh
    · exact search_mem_origin le k nd t h (List.mem_of_mem_filter hh)
    · exact search_mem_origin le k nd t h hh
  · simp at hh

theorem vector_results_pairwise (le : LocalEnv) (q : String) (nd : Option String) (k : Nat)
    (t : PyDate) : (vector_results le q nd k t).Pairwise distLE := by
  rw [vector_results]
  split
  · rw [post_retrieval_cleanse]
    split
    · exact List.Pairwise.sublist (List.filter_sublist _) (search_pairwise le k nd t)
    · exact search_pairwise le k nd t
  · simp

theorem keyword_pass_mem_origin (m : List Chunk) (q : String) (nd : Option String) :
    ∀ h ∈ keyword_pass m q nd, h.origin = .keyword := by
  intro h hh
  rw [keyword_pass] at hh
  split at hh
  · rcases List.mem_filterMap.mp hh with ⟨item, _, heq⟩
    split at heq
    · cases heq
    · split at heq
      · split at heq
        · split at heq
          · cases heq; rfl
          · cases heq
        · cases heq; rfl
      · cases heq
  · simp at hh

theorem merge_dedup_append (a b : List Hit) (seen : List String) :
    merge_dedup (a ++ b) seen = merge_dedup a seen ++ merge_dedup b (mergeSeen a seen) := by
  induction a generalizing seen with
  | nil => simp [merge_dedup, mergeSeen]
  | cons r rs ih =>
    by_cases hc : r.id ≠ "" ∧ ¬ seen.contains r.id
    · simp only [List.cons_append, merge_dedup, mergeSeen, if_pos hc, List.append_eq, ih]
    · simp only [List.cons_append, merge_dedup, mergeSeen, if_neg hc, List.append_eq, ih]

theorem merge_dedup_sublist (l : List Hit) : ∀ seen, (merge_dedup l seen).Sublist l := by
  induction l with
  | nil => intro seen; simp [merge_dedup]
  | cons r rs ih =>
    intro seen
    rw [merge_dedup]
    split
    · exact (ih _).cons₂ r
    · exact (ih _).cons r

theorem merge_dedup_ids (l : List Hit) :
    ∀ seen, ((merge_dedup l seen).map Hit.id).Nodup ∧
      ∀ h ∈ merge_dedup l seen, seen.contains h.id = false ∧ h.id ≠ "" := by
  induction l with
  | nil => intro seen; simp [merge_dedup]
  | cons r rs ih =>
    intro seen
    rw [merge_dedup]
    split
    · next hc =>
      refine ⟨?_, ?_⟩
      · rw [List.map_cons, List.nodup_cons]
        refine ⟨?_, (ih _).1⟩
        intro hmem
        rcases List.mem_map.mp hmem with ⟨h2, hh2, hid⟩
        have := ((ih (r.id :: seen)).2 h2 hh2).1
        rw [hid] at this
        simp [List.contains_cons] at this
      · intro h hh
        rcases List.mem_cons.mp hh with rfl | hh2
        · exact ⟨by simpa using hc.2, hc.1⟩
        · have h3 := (ih (r.id :: seen)).2 h hh2
          refine ⟨?_, h3.2⟩
          have := h3.1
          simp [List.contains_cons] at this
          simpa using this.2
    · next hc =>
      exact ih seen

/-- **C2.** In the merged result of every hybrid search call, hits are
deduplicated by id, every keyword-origin hit precedes every vector-origin hit,
the vector-origin hits are in ascending order of distance, the two groups
preserve the order of the underlying keyword and vector result lists, and the
list is truncated to at most `k` elements. -/
theorem C2_merge_ordering (le : LocalEnv) (query : String) (nd : Option String) (k : Nat)
    (today : PyDate) :
    ∃ l1 l2,
      final_results le query nd k today = l1 ++ l2 ∧
      ((final_results le query nd k today).map Hit.id).Nodup ∧
      (∀ h ∈ l1, h.origin = .keyword) ∧
      (∀ h ∈ l2, h.origin = .vector) ∧
      l1.Sublist (keyword_pass le.metadata query nd) ∧
      l2.Sublist (vector_results le query nd k today) ∧
      l2.Pairwise distLE ∧
      (final_results le query nd k today).length ≤ k := by
  have hsplit : final_results le query nd k today =
      (merge_dedup (keyword_pass le.metadata query nd) []).take k ++
        (merge_dedup (vector_results le query nd k today)
            (mergeSeen (keyword_pass le.metadata query nd) [])).take
          (k - (merge_dedup (keyword_pass le.metadata query nd) []).length) := by
    rw [final_results, merge_dedup_append, List.take_append_eq_append_take]
  refine ⟨_, _, hsplit, ?_, ?_, ?_, ?_, ?_, ?_, ?_⟩
  · rw [final_results]
    refine List.Nodup.sublist (List.Sublist.map _ (List.take_sublist _ _)) ?_
    exact (merge_dedup_ids _ []).1
  · intro h hh
    have h2 : h ∈ merge_dedup (keyword_pass le.metadata query nd) [] :=
      List.mem_of_mem_take hh
    exact keyword_pass_mem_origin _ _ _ h ((merge_dedup_sublist _ _).mem h2)
  · intro h hh
    have h2 := List.mem_of_mem_take hh
    exact vector_results_mem_origin le query nd k today h ((merge_dedup_sublist _ _).mem h2)
  · exact ((List.take_sublist _ _).trans (merge_dedup_sublist _ _))
  · exact ((List.take_sublist _ _).trans (merge_dedup_sublist _ _))
  · exact List.Pairwise.sublist ((List.take_sublist _ _).trans (merge_dedup_sublist _ _))
      (vector_results_pairwise le query nd k today)
  · rw [final_results]
    exact List.length_take_le _ _

/-! ## Relaxation and sentinel (C4, C5) -/

theorem relax_accept_sentinel : relax_accept no_record_sentinel = false := by decide

theorem relax_outcome_snd (env : Env) (q : String) (k : Nat) :
    (relax_outcome env q k).2 = 1 := by
  rw [relax_outcome]; split <;> rfl

theorem dated_snd_le_one (env : Env) (q : String) (nd : Option String) (k : Nat) :
    (call_retriever_dated env q nd k).2 ≤ 1 := by
  rw [call_retriever_dated]
  split
  · split
    · split
      · rw [relax_outcome_snd]
      · exact Nat.zero_le 1
    · exact Nat.zero_le 1
  · split
    · split
      · split
        · rw [relax_outcome_snd]
        · exact Nat.zero_le 1
      · exact Nat.zero_le 1
    · exact Nat.zero_le 1
    · exact Nat.zero_le 1

theorem none_call_empty_eval (env : Env) (le : LocalEnv) (q : String) (k : Nat)
    (hle : env.localEnv = some le) (hempty : final_results le q none k env.today = []) :
    call_retriever_none env q k = no_record_sentinel := by
  rw [call_retriever_none, hle]
  simp [hempty]

theorem dated_empty_relaxes (env : Env) (le : LocalEnv) (q : String) (nd : Option String)
    (k : Nat) (hle : env.localEnv = some le) (htru : truthyO nd = true)
    (hempty : final_results le q nd k env.today = []) :
    call_retriever_dated env q nd k = relax_outcome env q k := by
  rw [call_retriever_dated, hle]
  simp [hempty, htru]

theorem call_retriever_some_eval (env : Env) (q df : String) (nd : Option String) (k : Nat)
    (hdf : df ≠ "") (hnorm : normalize_date df env.today = .ok nd) :
    call_retriever env q (some df) k = .ok (call_retriever_dated env q nd k) := by
  rw [call_retriever, if_neg hdf, hnorm]

/-- **C4.**  For every hybrid search call whose merged result list is empty:
when a date filter was present (the supplied string is truthy and normalizes
to a truthy filter) the relaxation wrapper is invoked exactly once, and when
the relaxed merged result is also empty — or when no date filter was present —
the call returns the single synthetic no-record envelope string rather than an
empty result. -/
theorem C4_empty_result_sentinel (env : Env) (le : LocalEnv) (q : String) (k : Nat)
    (hle : env.localEnv = some le) :
    (final_results le q none k env.today = [] →
      call_retriever env q none k = .ok (no_record_sentinel, 0)) ∧
    (∀ df nd, df ≠ "" → normalize_date df env.today = .ok nd → truthyO nd = true →
      final_results le q nd k env.today = [] →
      ∃ out, call_retriever env q (some df) k = .ok (out, 1) ∧
        (final_results le q none k env.today = [] → out = no_record_sentinel)) := by
  constructor
  · intro hempty
    rw [call_retriever, none_call_empty_eval env le q k hle hempty]
  · intro df nd hdf hnorm htru hempty
    rw [call_retriever_some_eval env q df nd k hdf hnorm,
      dated_empty_relaxes env le q nd k hle htru hempty]
    refine ⟨(relax_outcome env q k).1, ?_, ?_⟩
    · rw [← relax_outcome_snd env q k]
    · intro hrelaxempty
      rw [relax_outcome, none_call_empty_eval env le q k hle hrelaxempty,
        relax_accept_sentinel]
      rfl

/-- Closed instance discharging the hypotheses of `C4_empty_result_sentinel`:
an empty index with the dated query of scenario S2 returns the sentinel after
exactly one relaxation. -/
theorem C4_empty_result_sentinel_witness :
    call_retriever ⟨some ⟨[], 0, fun _ => [], true⟩, fun _ => .ok [], ⟨2025, 3, 10⟩⟩
        "李四" (some "2024-06") 5 = .ok (no_record_sentinel, 1) := by
  obtain ⟨-, h2⟩ := C4_empty_result_sentinel
    ⟨some ⟨[], 0, fun _ => [], true⟩, fun _ => .ok [], ⟨2025, 3, 10⟩⟩
    ⟨[], 0, fun _ => [], true⟩ "李四" 5 rfl
  obtain ⟨out, hout, hsent⟩ := h2 "2024-06" (some "2024-06") (by decide) (by decide)
    (by decide) (by decide)
  rw [hout, hsent (by decide)]

/-- **C5.**  The relaxation layer: a call without a date filter is exactly the
non-relaxing core computation (so the relaxed re-run never recurses and always
terminates); every call performs at most one relaxation; and a dated call
whose merged result is empty is re-run through `call_retriever` with
`date_filter = None` and all other parameters (`query`, `k`, the environment)
unchanged, the re-run's accepted result or the sentinel becoming the final
answer. -/
theorem C5_relaxation_once (env : Env) (q : String) (df : Option String) (k : Nat) :
    (call_retriever env q none k = .ok (call_retriever_none env q k, 0)) ∧
    (∀ s n, call_retriever env q df k = .ok (s, n) → n ≤ 1) ∧
    (∀ le df0 nd, env.localEnv = some le → df = some df0 → df0 ≠ "" →
      normalize_date df0 env.today = .ok nd → truthyO nd = true →
      final_results le q nd k env.today = [] →
      call_retriever env q df k =
        .ok (if relax_accept (call_retriever_none env q k) then
            (call_retriever_none env q k, 1)
          else (no_record_sentinel, 1))) := by
  refine ⟨rfl, ?_, ?_⟩
  · intro s n hsn
    cases df with
    | none =>
      rw [call_retriever] at hsn
      cases hsn
      exact Nat.zero_le 1
    | some df0 =>
      rw [call_retriever] at hsn
      split at hsn
      · cases hsn; exact Nat.zero_le 1
      · split at hsn
        · cases hsn
        · next nd heq =>
          injection hsn with h2
          have hle1 := dated_snd_le_one env q nd k
          rw [h2] at hle1
          exact hle1
  · intro le df0 nd hle hdf hne hnorm htru hempty
    subst hdf
    rw [call_retriever_some_eval env q df0 nd k hne hnorm,
      dated_empty_relaxes env le q nd k hle htru hempty, relax_outcome]

/-- Closed instance discharging the hypotheses of `C5_relaxation_once`: the
dated empty search relaxes exactly once and the relaxed same-parameter call is
adopted verbatim when accepted. -/
theorem C5_relaxation_once_witness :
    call_retriever ⟨some ⟨[], 0, fun _ => [], true⟩, fun _ => .ok [], ⟨2025, 3, 10⟩⟩
        "李四" (some "2024-06") 5 =
      .ok (if relax_accept (call_retriever_none
              ⟨some ⟨[], 0, fun _ => [], true⟩, fun _ => .ok [], ⟨2025, 3, 10⟩⟩ "李四" 5) then
          (call_retriever_none
            ⟨some ⟨[], 0, fun _ => [], true⟩, fun _ => .ok [], ⟨2025, 3, 10⟩⟩ "李四" 5, 1)
        else (no_record_sentinel, 1)) := by
  obtain ⟨-, -, h3⟩ := C5_relaxation_once
    ⟨some ⟨[], 0, fun _ => [], true⟩, fun _ => .ok [], ⟨2025, 3, 10⟩⟩ "李四" (some "2024-06") 5
  exact h3 ⟨[], 0, fun _ => [], true⟩ "2024-06" (some "2024-06") rfl rfl (by decide)
    (by decide) (by decide) (by decide)

/-! ## Exact-substring keyword retrieval (C1) -/

theorem strIn_empty_hay (needle : String) (hneedle : needle ≠ "") : strIn needle "" = false := by
  rw [strIn]
  have : needle.data ≠ [] := by
    intro h
    exact hneedle (by cases needle with | mk d => cases h; rfl)
  cases hd : needle.data with
  | nil => exact absurd hd this
  | cons c cs => simp [containsFrom, isPrefixCh, hd]

theorem pyLower_empty_iff (s : String) : pyLower s = "" ↔ s = "" := by
  constructor
  · intro h
    have := congrArg String.data h
    simp only [pyLower] at this
    cases s with | mk d =>
      cases d with
      | nil => rfl
      | cons c cs => simp at this
  · intro h; rw [h]; rfl

/-- For a short single-token query, the keyword pass with no date filter is
exactly: copy the metadata items whose content contains the stripped query
case-insensitively. -/
theorem keyword_pass_single (m : List Chunk) (q : String) (hq : pyTrim q ≠ "")
    (hs : pySplitWs (pyTrim q) = [pyTrim q]) (hlen : pyLen (pyTrim q) < 20) :
    keyword_pass m q none =
      (m.filter fun c => strIn (pyLower (pyTrim q)) (pyLower c.content)).map kwHit := by
  rw [keyword_pass, if_pos hlen]
  induction m with
  | nil => rfl
  | cons c cs ih =>
    rw [List.filterMap_cons, List.filter_cons]
    have hmatch : kwContentMatch q c.content =
        strIn (pyLower (pyTrim q)) (pyLower c.content) := by
      rw [kwContentMatch, hs]
      simp
    by_cases hcont : c.content = ""
    · have hfalse : strIn (pyLower (pyTrim q)) (pyLower c.content) = false := by
        rw [hcont]
        exact strIn_empty_hay _ (fun hl => hq ((pyLower_empty_iff _).mp hl))
      rw [if_pos hcont, hfalse]
      simpa using ih
    · rw [if_neg hcont, hmatch]
      by_cases hin : strIn (pyLower (pyTrim q)) (pyLower c.content) = true
      · simp only [hin, if_pos, truthyO, List.map_cons]
        exact congrArg _ ih
      · have hin2 : strIn (pyLower (pyTrim q)) (pyLower c.content) = false :=
          Bool.eq_false_iff.mpr hin
        simp only [hin2, Bool.false_eq_true, if_false]
        simpa using ih

/-- **C1 (amended).**  For every *short single-token* query (stripped length
`< 20`, no internal whitespace, non-empty) whose stripped text occurs
case-insensitively in the content of exactly one indexed record, and that
record has a truthy id, a hybrid search with no date filter and `k ≥ 1`
returns that record as the first merged hit with origin `keyword` and distance
`0.0`. -/
theorem C1_keyword_first_hit (le : LocalEnv) (q : String) (k : Nat) (today : PyDate)
    (hq : pyTrim q ≠ "") (hs : pySplitWs (pyTrim q) = [pyTrim q])
    (hlen : pyLen (pyTrim q) < 20) (hk : 1 ≤ k) (c : Chunk) (hcid : c.id ≠ "")
    (huniq : le.metadata.filter (fun x => strIn (pyLower (pyTrim q)) (pyLower x.content))
      = [c]) :
    (final_results le q none k today).head? = some (kwHit c) ∧
      (kwHit c).id = c.id ∧ (kwHit c).origin = .keyword ∧ (kwHit c).distance = 0 := by
  refine ⟨?_, rfl, rfl, rfl⟩
  have hkw : keyword_pass le.metadata q none = [kwHit c] := by
    rw [keyword_pass_single le.metadata q hq hs hlen, huniq]
    rfl
  rw [final_results, hkw, List.singleton_append, merge_dedup,
    if_pos ⟨hcid, by simp⟩, List.take_cons (lt_of_lt_of_le Nat.zero_lt_one hk),
    List.head?_cons]

/-- Closed instance (spec scenario S1): query `张三`, the one record mentioning
it comes back first with origin `keyword` and distance `0`. -/
theorem C1_keyword_first_hit_witness :
    (final_results
        ⟨[⟨"voice_20240101", some "voice", some "2024-01-01", "今天见了 张三，聊了项目。"⟩,
          ⟨"voice_20240102", some "voice", some "2024-01-02", "今天天气不错。"⟩],
         2, fun _ => [(1, 3), (0, 5)], true⟩
        "张三" none 5 ⟨2025, 3, 10⟩).head? =
      some (kwHit ⟨"voice_20240101", some "voice", some "2024-01-01",
        "今天见了 张三，聊了项目。"⟩) :=
  (C1_keyword_first_hit
    ⟨[⟨"voice_20240101", some "voice", some "2024-01-01", "今天见了 张三，聊了项目。"⟩,
      ⟨"voice_20240102", some "voice", some "2024-01-02", "今天天气不错。"⟩],
     2, fun _ => [(1, 3), (0, 5)], true⟩
    "张三" 5 ⟨2025, 3, 10⟩ (by decide) (by decide) (by decide) (by decide)
    ⟨"voice_20240101", some "voice", some "2024-01-01", "今天见了 张三，聊了项目。"⟩
    (by decide) (by decide)).1

/-- **C1 (counterexample).**  The claim as stated quantifies over *every*
query: it fails for a query of stripped length ≥ 20, because the keyword pass
only runs for queries shorter than 20 characters.  Concretely, the query below
occurs in exactly one indexed record's content, yet with no date filter the
first (and only) merged hit carries origin `vector` with the FAISS distance,
not origin `keyword` with distance `0.0`. -/
theorem C1_counterexample :
    pyLen (pyTrim "abcdefghijklmnopqrstu") = 21 ∧
    ([⟨"rec_1", some "note", some "2024-01-01", "xx abcdefghijklmnopqrstu yy"⟩] :
        List Chunk).filter
        (fun x => strIn (pyLower (pyTrim "abcdefghijklmnopqrstu")) (pyLower x.content)) =
      [⟨"rec_1", some "note", some "2024-01-01", "xx abcdefghijklmnopqrstu yy"⟩] ∧
    (final_results
        ⟨[⟨"rec_1", some "note", some "2024-01-01", "xx abcdefghijklmnopqrstu yy"⟩],
         1, fun _ => [(0, 7)], true⟩
        "abcdefghijklmnopqrstu" none 5 ⟨2025, 3, 10⟩).map
        (fun h => (h.id, h.origin, h.distance)) =
      [("rec_1", Origin.vector, (7 : Rat))] := by
  refine ⟨by decide, by decide, by decide⟩

/-! ## Post-retrieval cleanse (C3) -/

/-- **C3 (amended).**  For every precise-entity query (stripped length `< 15`)
and every vector hit with non-empty content: a hit not classified as
user-authored survives the cleanse iff the longest whitespace token occurs
case-insensitively in its content; a user-authored hit (id starting `voice_`,
or the documented test id, or source `voice`) survives iff the query is
generic *in the code's sense* — some token in the configured set, or stripped
length ≤ 6, **or `最近`/`什么` occurring anywhere as a substring** — or some
query token longer than one character occurs in its content.  (Hits with empty
content are always dropped.) -/
theorem C3_cleanse_characterization (q : String) (rs : List Hit) (r : Hit)
    (hprec : pyLen (pyTrim q) < 15) (hcont : r.content ≠ "") :
    r ∈ post_retrieval_cleanse q rs ↔ r ∈ rs ∧
      (if isVoiceHit r then
        (isGenericQuery (pyTrim q) (pySplitWs (pyTrim q)) = true ∨
          ∃ t ∈ pySplitWs (pyTrim q), 1 < pyLen t ∧
            strIn (pyLower t) (pyLower r.content) = true)
       else strIn (pyLower (longestToken (pySplitWs (pyTrim q)) (pyTrim q)))
          (pyLower r.content) = true) := by
  rw [post_retrieval_cleanse, if_pos hprec, List.mem_filter]
  refine and_congr_right fun _ => ?_
  rw [cleanseKeep, if_neg hcont]
  by_cases hv : isVoiceHit r = true
  · rw [if_pos hv, if_pos hv]
    by_cases hg : isGenericQuery (pyTrim q) (pySplitWs (pyTrim q)) = true
    · simp [hg]
    · simp [hg, List.any_eq_true, Bool.and_eq_true, decide_eq_true_eq]
  · rw [if_neg hv, if_neg hv]

/-- Closed instance discharging the hypotheses of
`C3_cleanse_characterization`: a non-user-authored hit whose content contains
the core token survives the cleanse. -/
theorem C3_cleanse_characterization_witness :
    (⟨"note_1", some "note", some "2024-01-01", "见了 张三", 2, .vector⟩ : Hit) ∈
      post_retrieval_cleanse "张三"
        [⟨"note_1", some "note", some "2024-01-01", "见了 张三", 2, .vector⟩] :=
  (C3_cleanse_characterization "张三"
    [⟨"note_1", some "note", some "2024-01-01", "见了 张三", 2, .vector⟩]
    ⟨"note_1", some "note", some "2024-01-01", "见了 张三", 2, .vector⟩
    (by decide) (by decide)).mpr (by decide)

/-- **C3 (counterexample).**  The claim describes the generic-query bypass as
"contains a token from the configured small set or has length at most 6".
The code is broader: it also treats any query containing `最近` (or `什么`) as
a *substring* as generic.  The 9-character single-token query below is not
generic by the claim's wording, and no query token occurs in the hit's
content, so the claim says the user-authored hit must be dropped — yet the
cleanse keeps it. -/
theorem C3_counterexample :
    pyLen (pyTrim "最近的面试准备情况") < 15 ∧
    isVoiceHit ⟨"voice_001", some "voice", some "2024-01-01", "今天吃了饭", 2, .vector⟩
      = true ∧
    claimGenericQuery (pyTrim "最近的面试准备情况")
      (pySplitWs (pyTrim "最近的面试准备情况")) = false ∧
    ((pySplitWs (pyTrim "最近的面试准备情况")).any fun t =>
      decide (pyLen t > 1) && strIn (pyLower t) (pyLower "今天吃了饭")) = false ∧
    post_retrieval_cleanse "最近的面试准备情况"
        [⟨"voice_001", some "voice", some "2024-01-01", "今天吃了饭", 2, .vector⟩] =
      [⟨"voice_001", some "voice", some "2024-01-01", "今天吃了饭", 2, .vector⟩] := by
  refine ⟨by decide, by decide, by decide, by decide, by decide⟩

/-! ## Keyword-pass date filtering (C6) -/

theorem filterMap_guard_eq_map_filter {α β : Type} (p : α → Bool) (g : α → β) (l : List α) :
    (l.filterMap fun a => if p a then some (g a) else none) = (l.filter p).map g := by
  induction l with
  | nil => rfl
  | cons a as ih =>
    by_cases h : p a = true <;> simp [List.filterMap_cons, List.filter_cons, h, ih]

/-- **C6 (amended).**  In the keyword pass, for every truthy normalized date
filter string, a keyword-matching record is kept iff its date is a non-null
string that passes `_match_date_filter`'s *prefix* test: after stripping it is
non-empty and **starts with** the filter string (for a `-下旬` filter: starts
with the filter's year-month part, is at least 10 characters long, and its day
component parses to 21–31).  Records with a null date never match any filter. -/
theorem C6_keyword_date_startswith (m : List Chunk) (q nf : String)
    (hshort : pyLen (pyTrim q) < 20) (hnf : nf ≠ "") :
    (keyword_pass m q (some nf) =
      (m.filter fun c =>
        (!(c.content == "")) && kwContentMatch q c.content &&
          match_date_filter c.date nf).map kwHit) ∧
    (∀ f, match_date_filter none f = false) ∧
    (∀ s f, match_date_filter (some s) f = true → pyTrim s ≠ "" ∧
      (pyEndsWith f "-下旬" = false → pyStartsWith (pyTrim s) f = true) ∧
      (pyEndsWith f "-下旬" = true →
        pyStartsWith (pyTrim s) (pyDropRight f 3) = true ∧ pyLen (pyTrim s) ≥ 10)) := by
  refine ⟨?_, fun f => rfl, ?_⟩
  · have hf : ∀ c : Chunk,
        (if c.content = "" then none
         else if kwContentMatch q c.content = true then
           (if truthyO (some nf) = true then
             (if match_date_filter c.date nf = true then some (kwHit c) else none)
            else some (kwHit c))
         else none) =
        if ((!(c.content == "")) && kwContentMatch q c.content &&
            match_date_filter c.date nf) = true then some (kwHit c) else none := by
      intro c
      by_cases h1 : c.content = "" <;> by_cases h2 : kwContentMatch q c.content = true <;>
        by_cases h3 : match_date_filter c.date nf = true <;>
          simp [h1, h2, h3, truthyO, hnf]
    rw [keyword_pass, if_pos hshort]
    simp only [Option.getD_some, hf]
    exact filterMap_guard_eq_map_filter _ kwHit m
  · intro s f h
    rw [match_date_filter] at h
    by_cases he : pyTrim s = ""
    · rw [if_pos he] at h; cases h
    · rw [if_neg he] at h
      refine ⟨he, ?_, ?_⟩
      · intro hsuf
        rw [hsuf] at h
        simpa using h
      · intro hsuf
        rw [hsuf, if_pos rfl] at h
        by_cases hpre : pyStartsWith (pyTrim s) (pyDropRight f 3) = true
        · rw [if_pos hpre] at h
          refine ⟨hpre, ?_⟩
          by_cases hlen : pyLen (pyTrim s) ≥ 10
          · exact hlen
          · rw [if_neg hlen] at h; cases h
        · rw [if_neg hpre] at h; cases h

/-- Closed instance discharging the hypotheses of `C6_keyword_date_startswith`
(spec scenario S3-style: month filter `2024-11` matching by string prefix). -/
theorem C6_keyword_date_startswith_witness :
    keyword_pass [⟨"voice_20241125", some "voice", some "2024-11-25", "抑郁 症状 记录"⟩]
        "抑郁" (some "2024-11") =
      ([(⟨"voice_20241125", some "voice", some "2024-11-25", "抑郁 症状 记录"⟩ : Chunk)].filter
        fun c => (!(c.content == "")) && kwContentMatch "抑郁" c.content &&
          match_date_filter c.date "2024-11").map kwHit :=
  (C6_keyword_date_startswith
    [⟨"voice_20241125", some "voice", some "2024-11-25", "抑郁 症状 记录"⟩]
    "抑郁" "2024-11" (by decide) (by decide)).1

/-- **C6 (counterexample).**  The claim says a keyword-matching record is kept
iff its date falls in the inclusive `[start, end]` range that the date-filter
parser assigns to the supplied filter.  For the filter `2_days_ago` at
current date 2025-03-10 the parser's range is `[2025-03-09, 2025-03-10]`
and the record below (dated 2025-03-10, matching the query) lies inside it —
but the keyword pass tests `date.startswith("2_days_ago")`, which no date
satisfies, so the record is dropped. -/
theorem C6_counterexample :
    normalize_date "2_days_ago" ⟨2025, 3, 10⟩ = .ok (some "2_days_ago") ∧
    parse_date_filter "2_days_ago" ⟨2025, 3, 10⟩ = some (⟨2025, 3, 9⟩, ⟨2025, 3, 10⟩) ∧
    strptimeYmd "2025-03-10" = some ⟨2025, 3, 10⟩ ∧
    dateLE ⟨2025, 3, 9⟩ ⟨2025, 3, 10⟩ = true ∧
    dateLE ⟨2025, 3, 10⟩ ⟨2025, 3, 10⟩ = true ∧
    kwContentMatch "张三" "张三 来访" = true ∧
    keyword_pass [⟨"voice_20250310", some "voice", some "2025-03-10", "张三 来访"⟩]
      "张三" (some "2_days_ago") = [] := by
  refine ⟨by decide, by decide, by decide, by decide, by decide, by decide, by decide⟩

/-! ## Metadata/index size invariant (C8) -/

/-- **C8 (amended).**  The retriever checks `|metadata| == index.ntotal` at
load time and refuses to serve retrieval when they differ: loading succeeds
iff the two sizes agree, so every *served* retriever satisfies the invariant
(the invariant does **not** hold at every observable time — see
`C8_counterexample`). -/
theorem C8_load_invariant (ntotal : Nat) (metadata : List Chunk) :
    (∃ r, load_index_and_metadata ntotal metadata = .ok r) ↔ ntotal = metadata.length := by
  rw [load_index_and_metadata]
  by_cases h : ntotal = metadata.length
  · simp [h]
  · simp [h]

/-- Closed instance discharging the hypothesis side of `C8_load_invariant`. -/
theorem C8_load_invariant_witness : ∃ r, load_index_and_metadata 0 [] = .ok r :=
  (C8_load_invariant 0 []).mpr rfl

/-- **C8 (counterexample).**  Deleting a conversation rewrites the metadata
file with the deleted ids filtered out but does not touch the index (a rebuild
is only scheduled), so between the rewrite and the rebuild the on-disk pair is
observable with `|metadata| ≠ ntotal` — a subsequent load refuses to serve. -/
theorem C8_counterexample :
    delete_cleanup_metadata ["voice_20240101_1200"]
        [⟨"voice_20240101_1200", some "voice", some "2024-01-01", "内容"⟩] = [] ∧
    (delete_cleanup_metadata ["voice_20240101_1200"]
        [⟨"voice_20240101_1200", some "voice", some "2024-01-01", "内容"⟩]).length ≠ 1 ∧
    load_index_and_metadata 1
        (delete_cleanup_metadata ["voice_20240101_1200"]
          [⟨"voice_20240101_1200", some "voice", some "2024-01-01", "内容"⟩]) =
      .error "索引向量数量与元数据数量不匹配" := by
  refine ⟨by decide, by decide, by decide⟩

/-! ## Append / id uniqueness (C9) -/

/-- **C9 (code bug).**  `generate_id` has minute resolution
(`voice_YYYYMMDD_HHMM`), `add_voice_record` appends unconditionally and
`save_records` rewrites the file in place: two records created within the same
clock minute receive the *same* id and are both stored, duplicating the id the
function's own docstring promises unique ("生成唯一 ID"). -/
theorem C9_duplicate_id_accepted :
    (create_record "第一条" ⟨2024, 1, 1, 12, 0⟩).id = "voice_20240101_1200" ∧
    (create_record "第二条" ⟨2024, 1, 1, 12, 0⟩).id = "voice_20240101_1200" ∧
    (records_append (records_append [] (create_record "第一条" ⟨2024, 1, 1, 12, 0⟩))
        (create_record "第二条" ⟨2024, 1, 1, 12, 0⟩)).map VoiceRecord.id =
      ["voice_20240101_1200", "voice_20240101_1200"] ∧
    ¬ ((records_append (records_append [] (create_record "第一条" ⟨2024, 1, 1, 12, 0⟩))
        (create_record "第二条" ⟨2024, 1, 1, 12, 0⟩)).map VoiceRecord.id).Nodup := by
  refine ⟨by decide, by decide, by decide, by decide⟩

/-! ## Chat endpoint error containment (C10) -/

/-- **C10.**  The `POST /api/chat` handler is a total function of its inputs
(no exception escapes to the HTTP layer): when the RAG module is unavailable
or the agent call raises, it answers with `success = false` and the error
text; otherwise it returns the agent's reply with `success = true`, and
`success = false` always comes with a non-null `error`. -/
theorem C10_chat_api_total (d : ChatDeps) (message : String) (history : List ChatMsg) :
    ((chat_api d message history).1 =
      (if d.ragAvailable = false then rag_unavailable_response
       else
        match d.agent message history with
        | .ok resp => ⟨resp, true, none⟩
        | .error e => ⟨"处理请求时出错: " ++ e, false, some e⟩)) ∧
    ((chat_api d message history).1.success = true ↔
      d.ragAvailable = true ∧ ∃ resp, d.agent message history = .ok resp) ∧
    ((chat_api d message history).1.success = false →
      (chat_api d message history).1.error ≠ none) := by
  by_cases hr : d.ragAvailable = false
  · refine ⟨by rw [chat_api, if_pos hr, if_pos hr], ?_, ?_⟩
    · rw [chat_api, if_pos hr]
      simp [rag_unavailable_response, hr]
    · rw [chat_api, if_pos hr]
      simp [rag_unavailable_response]
  · have hr2 : d.ragAvailable = true := by
      revert hr; cases d.ragAvailable <;> simp
    cases hag : d.agent message history with
    | ok resp =>
      refine ⟨?_, ?_, ?_⟩
      · rw [chat_api, if_neg hr, if_neg hr, hag]
      · rw [chat_api, if_neg hr, hag]
        simp [hr2]
      · rw [chat_api, if_neg hr, hag]
        simp
    | error e =>
      refine ⟨?_, ?_, ?_⟩
      · rw [chat_api, if_neg hr, if_neg hr, hag]
      · rw [chat_api, if_neg hr, hag]
        simp [hag]
      · rw [chat_api, if_neg hr, hag]
        simp

/-- Closed instance discharging the hypotheses of `C10_chat_api_total`. -/
theorem C10_chat_api_total_witness :
    (chat_api ⟨true, fun _ _ => .ok "你好"⟩ "hi" []).1.success = true :=
  (C10_chat_api_total ⟨true, fun _ _ => .ok "你好"⟩ "hi" []).2.1.mpr ⟨rfl, "你好", rfl⟩

/-! ## `N_days_ago` parsing (C7): decimal-string machinery -/

theorem digit_isDigit (k : Nat) (hk : k < 10) : (Char.ofNat (48 + k)).isDigit = true := by
  interval_cases k <;> decide

theorem digit_toNat (k : Nat) (hk : k < 10) : (Char.ofNat (48 + k)).toNat - 48 = k := by
  interval_cases k <;> decide

theorem digit_toLower (k : Nat) (hk : k < 10) :
    Char.toLower (Char.ofNat (48 + k)) = Char.ofNat (48 + k) := by
  interval_cases k <;> decide

theorem digit_not_ws (k : Nat) (hk : k < 10) : chIsWs (Char.ofNat (48 + k)) = false := by
  interval_cases k <;> decide

theorem digit_ne (k : Nat) (hk : k < 10) :
    Char.ofNat (48 + k) ≠ '_' ∧ Char.ofNat (48 + k) ≠ 'l' ∧
      Char.ofNat (48 + k) ≠ '-' ∧ Char.ofNat (48 + k) ≠ '+' := by
  interval_cases k <;> decide

theorem natDigitsAux_all (fuel : Nat) :
    ∀ (n : Nat), ∀ c ∈ natDigitsAux fuel n, ∃ j, j < 10 ∧ c = Char.ofNat (48 + j) := by
  induction fuel with
  | zero => intro n c hc; simp [natDigitsAux] at hc
  | succ fuel ih =>
    intro n c hc
    rw [natDigitsAux] at hc
    by_cases h : n < 10
    · rw [if_pos h] at hc
      rcases List.mem_singleton.mp hc with rfl
      exact ⟨n, h, rfl⟩
    · rw [if_neg h] at hc
      rcases List.mem_append.mp hc with hc2 | hc2
      · exact ih (n / 10) c hc2
      · rcases List.mem_singleton.mp hc2 with rfl
        exact ⟨n % 10, Nat.mod_lt _ (by omega), rfl⟩

theorem natDigitsAux_ne_nil (fuel n : Nat) (h : n < fuel) : natDigitsAux fuel n ≠ [] := by
  cases fuel with
  | zero => omega
  | succ fuel =>
    rw [natDigitsAux]
    by_cases h2 : n < 10
    · rw [if_pos h2]; simp
    · rw [if_neg h2]; simp

theorem digitsToNatAux_append (xs ys : List Char) :
    ∀ acc, digitsToNatAux (xs ++ ys) acc =
      (digitsToNatAux xs acc).bind fun m => digitsToNatAux ys m := by
  induction xs with
  | nil => intro acc; rfl
  | cons c cs ih =>
    intro acc
    rw [List.cons_append, digitsToNatAux, digitsToNatAux]
    by_cases h : c.isDigit = true
    · rw [if_pos h, if_pos h, ih]
    · rw [if_neg h, if_neg h]; rfl

theorem parse_natDigitsAux (fuel : Nat) :
    ∀ (n acc : Nat), n < fuel →
      digitsToNatAux (natDigitsAux fuel n) acc =
        some (acc * 10 ^ (natDigitsAux fuel n).length + n) := by
  induction fuel with
  | zero => intro n acc h; omega
  | succ fuel ih =>
    intro n acc h
    rw [natDigitsAux]
    by_cases h10 : n < 10
    · rw [if_pos h10]
      rw [digitsToNatAux, if_pos (digit_isDigit n h10), digitsToNatAux, digit_toNat n h10]
      simp
    · rw [if_neg h10]
      have hdiv : n / 10 < fuel := by
        have := Nat.div_lt_self (show 0 < n by omega) (show 1 < 10 by omega)
        omega
      have hmod : n % 10 < 10 := Nat.mod_lt _ (by omega)
      rw [digitsToNatAux_append, ih (n / 10) acc hdiv]
      rw [Option.some_bind, digitsToNatAux, if_pos (digit_isDigit _ hmod), digitsToNatAux,
        digit_toNat _ hmod, List.length_append, List.length_singleton]
      congr 1
      rw [pow_succ]
      have hdm := Nat.div_add_mod n 10
      generalize (10 : Nat) ^ (natDigitsAux fuel (n / 10)).length = X
      ring_nf
      omega

theorem dropWhileWs_eq_self (l : List Char) (h : ∀ c ∈ l, chIsWs c = false) :
    dropWhileWs l = l := by
  cases l with
  | nil => rfl
  | cons c cs =>
    rw [dropWhileWs, if_neg]
    rw [h c (List.mem_cons_self c cs)]
    simp

theorem trimChars_eq_self (l : List Char) (h : ∀ c ∈ l, chIsWs c = false) :
    trimChars l = l := by
  rw [trimChars, dropWhileWs_eq_self l h, dropWhileWs_eq_self]
  · exact List.reverse_reverse l
  · intro c hc
    exact h c (List.mem_reverse.mp hc)

theorem isPrefixCh_self_append (l X : List Char) : isPrefixCh l (l ++ X) = true := by
  induction l with
  | nil => rfl
  | cons c cs ih => simp [isPrefixCh, ih]

theorem months_ago_not_suffix_of_days (X : List Char) :
    isPrefixCh ("_months_ago".data.reverse) ("_days_ago".data.reverse ++ X) = false := by
  simp [isPrefixCh,
    show "_months_ago".data.reverse = ['o', 'g', 'a', '_', 's', 'h', 't', 'n', 'o', 'm', '_']
      from by decide,
    show "_days_ago".data.reverse = ['o', 'g', 'a', '_', 's', 'y', 'a', 'd', '_'] from by decide]

theorem replace_strip_days (ds : List Char) (hds : ∀ c ∈ ds, c ≠ '_') :
    replaceChAux "_days_ago".data [] (ds ++ "_days_ago".data).length
      (ds ++ "_days_ago".data) = ds := by
  induction ds with
  | nil => decide
  | cons d ds2 ih =>
    have hd : d ≠ '_' := hds d (List.mem_cons_self d ds2)
    have hpref : isPrefixCh "_days_ago".data (d :: (ds2 ++ "_days_ago".data)) = false := by
      rw [show "_days_ago".data = '_' :: "days_ago".data from by decide, isPrefixCh]
      have : ('_' == d) = false := beq_eq_false_iff_ne.mpr (Ne.symm hd)
      rw [this]
      rfl
    rw [List.cons_append, List.length_cons, replaceChAux, hpref]
    simp only [Bool.false_eq_true, if_false]
    rw [ih fun c hc => hds c (List.mem_cons_of_mem d hc)]

theorem pyIntOpt_digits (l : List Char) (hne : l ≠ [])
    (hall : ∀ c ∈ l, ∃ j, j < 10 ∧ c = Char.ofNat (48 + j)) (v : Nat)
    (hparse : digitsToNatAux l 0 = some v) : pyIntOpt ⟨l⟩ = some (v : Int) := by
  have hnws : ∀ c ∈ l, chIsWs c = false := by
    intro c hc
    rcases hall c hc with ⟨j, hj, rfl⟩
    exact digit_not_ws j hj
  cases l with
  | nil => exact absurd rfl hne
  | cons c rest =>
    rcases hall c (List.mem_cons_self c rest) with ⟨j, hj, rfl⟩
    have htrim : trimChars (String.mk (Char.ofNat (48 + j) :: rest)).data =
        Char.ofNat (48 + j) :: rest := trimChars_eq_self _ hnws
    rw [pyIntOpt, htrim]
    have hm : (Char.ofNat (48 + j) == '-') = false :=
      beq_eq_false_iff_ne.mpr (digit_ne j hj).2.2.1
    have hp : (Char.ofNat (48 + j) == '+') = false :=
      beq_eq_false_iff_ne.mpr (digit_ne j hj).2.2.2
    simp only [hm, hp, Bool.false_eq_true, if_false]
    rw [hparse]
    rfl

theorem addDaysI_one_sub (today : PyDate) (n : Nat) (hn : 1 ≤ n) :
    addDaysI today (1 - (n : Int)) = subDaysN today (n - 1) := by
  rw [addDaysI]
  by_cases h : (0 : Int) ≤ 1 - (n : Int)
  · have hn1 : n = 1 := by omega
    subst hn1
    rw [if_pos h]
    rfl
  · rw [if_neg h]
    congr 1
    omega

/-- **C7.**  For every `N ≥ 1` (written in canonical decimal) and every
caller-supplied current date, `_parse_date_filter` maps `"N_days_ago"` to the
inclusive range `[today − (N−1), today]`; in particular `N = 1` gives exactly
today and `N = 2` the two-day window of yesterday and today (see the witness).
(Date arithmetic is modelled on the unbounded proleptic calendar; `datetime`'s
year-1 floor, reachable only for astronomically large `N`, is outside the
model.) -/
theorem C7_n_days_ago (n : Nat) (hn : 1 ≤ n) (today : PyDate) :
    parse_date_filter (natStr n ++ "_days_ago") today =
      some (subDaysN today (n - 1), today) := by
  have hfuel : n < n + 1 := Nat.lt_succ_self n
  set D := natDigitsAux (n + 1) n with hD
  have hall : ∀ c ∈ D, ∃ j, j < 10 ∧ c = Char.ofNat (48 + j) := natDigitsAux_all (n + 1) n
  have hnil : D ≠ [] := natDigitsAux_ne_nil (n + 1) n hfuel
  have hdata : (natStr n ++ "_days_ago").data = D ++ "_days_ago".data := by
    rw [String.data_append]; rfl
  have hne : (natStr n ++ "_days_ago") ≠ "" := by
    intro h
    have h2 := congrArg String.data h
    rw [hdata] at h2
    rcases List.append_eq_nil.mp h2 with ⟨-, h3⟩
    exact (show ("_days_ago".data : List Char) ≠ [] from by decide) h3
  have hnws : ∀ c ∈ D ++ "_days_ago".data, chIsWs c = false := by
    intro c hc
    rcases List.mem_append.mp hc with hc2 | hc2
    · rcases hall c hc2 with ⟨j, hj, rfl⟩
      exact digit_not_ws j hj
    · clear hc
      revert c
      decide
  have hlowerD : ∀ c ∈ D, Char.toLower c = c := by
    intro c hc
    rcases hall c hc with ⟨j, hj, rfl⟩
    exact digit_toLower j hj
  have hlower : (D ++ "_days_ago".data).map Char.toLower = D ++ "_days_ago".data := by
    rw [List.map_append, (List.map_congr_left hlowerD).trans (List.map_id D),
      show ("_days_ago".data).map Char.toLower = "_days_ago".data from by decide]
  have hnorm : pyLower (pyTrim (natStr n ++ "_days_ago")) =
      (⟨D ++ "_days_ago".data⟩ : String) := by
    rw [pyTrim, hdata, trimChars_eq_self _ hnws, pyLower]
    exact congrArg String.mk hlower
  obtain ⟨c0, D2, hshape⟩ : ∃ c0 D2, D = c0 :: D2 := by
    cases hDnil : D with
    | nil => exact absurd hDnil hnil
    | cons a b => exact ⟨a, b, rfl⟩
  obtain ⟨j0, hj0, hc0⟩ := hall c0 (hshape ▸ List.mem_cons_self c0 D2)
  have hne_l : ∀ t : String, t.data.head? = some 'l' →
      (⟨D ++ "_days_ago".data⟩ : String) ≠ t := by
    intro t ht heq
    have h2 := congrArg String.data heq
    rw [show (String.mk (D ++ "_days_ago".data)).data = D ++ "_days_ago".data from rfl,
      hshape, List.cons_append] at h2
    have h3 := congrArg List.head? h2
    rw [ht] at h3
    simp only [List.head?_cons, Option.some.injEq] at h3
    rw [hc0] at h3
    exact (digit_ne j0 hj0).2.1 h3
  have hmonthsbranch : monthsAgoBranch ⟨D ++ "_days_ago".data⟩ today = none := by
    rw [monthsAgoBranch, if_neg]
    rw [pyEndsWith,
      show (String.mk (D ++ "_days_ago".data)).data = D ++ "_days_ago".data from rfl,
      List.reverse_append, months_ago_not_suffix_of_days]
    simp
  have hdays : pyEndsWith (⟨D ++ "_days_ago".data⟩ : String) "_days_ago" = true := by
    rw [pyEndsWith,
      show (String.mk (D ++ "_days_ago".data)).data = D ++ "_days_ago".data from rfl,
      List.reverse_append]
    exact isPrefixCh_self_append _ _
  have hnund : ∀ c ∈ D, c ≠ '_' := by
    intro c hc
    rcases hall c hc with ⟨j, hj, rfl⟩
    exact (digit_ne j hj).1
  have hreplace : pyReplace ⟨D ++ "_days_ago".data⟩ "_days_ago" "" = (⟨D⟩ : String) := by
    rw [pyReplace, if_neg (show ¬ ("_days_ago" : String) = "" from by decide)]
    refine congrArg String.mk ?_
    rw [show ("" : String).data = [] from rfl]
    exact replace_strip_days D hnund
  have hint : pyIntOpt (⟨D⟩ : String) = some (n : Int) := by
    refine pyIntOpt_digits D hnil hall n ?_
    have h5 := parse_natDigitsAux (n + 1) n 0 hfuel
    simpa using h5
  have hdaysbranch : daysAgoBranch ⟨D ++ "_days_ago".data⟩ today =
      some (subDaysN today (n - 1), today) := by
    rw [daysAgoBranch, if_pos hdays, hreplace, hint]
    show some (addDaysI today (1 - (n : Int)), today) = some (subDaysN today (n - 1), today)
    rw [addDaysI_one_sub today n hn]
  rw [parse_date_filter, if_neg hne, hnorm, parseNormalized,
    if_neg (hne_l "last_year" (by decide)), if_neg (hne_l "last_month" (by decide)),
    if_neg (hne_l "last_week" (by decide)), hmonthsbranch, Option.none_orElse,
    hdaysbranch, Option.some_orElse]

/-- Closed instances of `C7_n_days_ago`: `1_days_ago` is exactly today and
`2_days_ago` is the yesterday-to-today window (spec scenario S4). -/
theorem C7_n_days_ago_witness :
    parse_date_filter (natStr 1 ++ "_days_ago") ⟨2025, 3, 10⟩ =
        some (⟨2025, 3, 10⟩, ⟨2025, 3, 10⟩) ∧
      parse_date_filter (natStr 2 ++ "_days_ago") ⟨2025, 3, 10⟩ =
        some (⟨2025, 3, 9⟩, ⟨2025, 3, 10⟩) :=
  ⟨C7_n_days_ago 1 (by decide) ⟨2025, 3, 10⟩, C7_n_days_ago 2 (by decide) ⟨2025, 3, 10⟩⟩

end VoiceJournal
